import Mathlib

/-!
Verification of the OTP authentication and field-encryption core of the
AgriBridge repository (`src/services/auth_service.py`, `src/utils/security.py`,
`src/models/auth.py`, `src/utils/config.py`).

Conventions of the shallow embedding:
* `datetime` values are modelled as natural numbers (seconds); `utcnow()` is an
  explicit `now` parameter threaded through each operation.
* Cryptographic primitives that the code obtains from libraries (HMAC-SHA256,
  the AES block cipher, JWT signing) are opaque function parameters; all of the
  repository's own logic around them (normalization, branching, CBC chaining,
  PKCS7 padding, base64 framing, state updates) is embedded concretely.
* Byte strings are `List Nat` with every element `< 256`; a Python `str`
  plaintext is represented by its UTF-8 byte sequence.
* The DynamoDB OTP table is modelled by the record stored at the one key the
  service ever touches, `(PK = OTP#phone_hash, SK = CURRENT)`: an
  `Option OTPRecord` value, `none` meaning no item.
* Python dicts are association lists with first-match lookup and
  update-in-place-or-append insertion, which matches dict iteration order.
-/

/-! ## Phone number hashing (`src/utils/security.py`, `PhoneNumberHasher`) -/

/-- Embedding of `PhoneNumberHasher._normalize_phone_number`: remove all
non-digit characters, then strip a leading `"91"` country code when the digit
string is longer than 10 digits. Digits are modelled as ASCII `0`-`9`. -/
def PhoneNumberHasher.normalize_phone_number (phone : String) : String :=
  let ds := phone.data.filter (fun c => c.isDigit)
  let ds := if ds.take 2 = ['9', '1'] ∧ 10 < ds.length then ds.drop 2 else ds
  String.mk ds

/-- Embedding of `PhoneNumberHasher.hash_phone_number`. The HMAC-SHA256 keyed
by the configured salt is the opaque parameter `mac`; the function rejects the
empty phone number and otherwise applies `mac` to the normalized number. -/
def PhoneNumberHasher.hash_phone_number (mac : String → String)
    (phone : String) : Except String String :=
  if phone = "" then Except.error "Phone number cannot be empty"
  else Except.ok (mac (PhoneNumberHasher.normalize_phone_number phone))

/-- Embedding of `PhoneNumberHasher.verify_phone_number`: recompute the hash
and compare; a `ValueError`/`TypeError` raised by hashing is caught and turned
into `False`. (`hmac.compare_digest` is equality computed in constant time;
the timing aspect is not modelled.) -/
def PhoneNumberHasher.verify_phone_number (mac : String → String)
    (phone hashValue : String) : Bool :=
  match PhoneNumberHasher.hash_phone_number mac phone with
  | Except.error _ => false
  | Except.ok computed => computed == hashValue

/-- Every character of a normalized phone number is a digit. -/
theorem PhoneNumberHasher.normalize_mem_isDigit (phone : String) :
    ∀ c ∈ (PhoneNumberHasher.normalize_phone_number phone).data, c.isDigit := by
  intro c hc
  unfold PhoneNumberHasher.normalize_phone_number at hc
  simp only [String.data] at hc
  split at hc
  · exact List.of_mem_filter (List.mem_of_mem_drop hc)
  · exact List.of_mem_filter hc

/-- Normalization fixes strings that are already all digits and either short
enough or not `"91"`-prefixed. -/
theorem PhoneNumberHasher.normalize_of_digits (s : String)
    (hd : ∀ c ∈ s.data, c.isDigit)
    (h91 : s.data.take 2 = ['9', '1'] → s.data.length ≤ 10) :
    PhoneNumberHasher.normalize_phone_number s = s := by
  unfold PhoneNumberHasher.normalize_phone_number
  have hf : s.data.filter (fun c => c.isDigit) = s.data :=
    List.filter_eq_self.mpr (by intro c hc; simpa using hd c hc)
  simp only [hf]
  have hneg : ¬(s.data.take 2 = ['9', '1'] ∧ 10 < s.data.length) := by
    rintro ⟨h1, h2⟩
    exact absurd (h91 h1) (by omega)
  rw [if_neg hneg]

/-- C7 (counterexample): normalization is not idempotent on every input.
For the digit string `"9191234567890"` (13 digits) one pass strips the leading
`"91"` giving the 11-digit `"91234567890"`, and a second pass strips again,
giving `"234567890"`. -/
theorem normalize_phone_number_not_idempotent :
    PhoneNumberHasher.normalize_phone_number
        (PhoneNumberHasher.normalize_phone_number "9191234567890") ≠
      PhoneNumberHasher.normalize_phone_number "9191234567890" := by
  decide

/-- C7 (amended): for every non-empty phone number the hash is `mac` applied to
the canonical form (strip non-digits, then strip a leading `"91"` when longer
than 10 digits), hence `hash("+91 98-76-543-210") = hash("9876543210") =
hash("919876543210")`; and normalization is idempotent on every phone number
whose canonical form does not again begin with `"91"` while longer than 10
digits (in particular on every canonical 10-digit number). -/
theorem phone_hash_format_invariant (mac : String → String) (p : String)
    (hp : p ≠ "")
    (h91 : (PhoneNumberHasher.normalize_phone_number p).data.take 2 = ['9', '1'] →
      (PhoneNumberHasher.normalize_phone_number p).data.length ≤ 10) :
    PhoneNumberHasher.hash_phone_number mac p =
        Except.ok (mac (PhoneNumberHasher.normalize_phone_number p))
      ∧ PhoneNumberHasher.hash_phone_number mac "+91 98-76-543-210" =
          PhoneNumberHasher.hash_phone_number mac "9876543210"
      ∧ PhoneNumberHasher.hash_phone_number mac "9876543210" =
          PhoneNumberHasher.hash_phone_number mac "919876543210"
      ∧ PhoneNumberHasher.normalize_phone_number
            (PhoneNumberHasher.normalize_phone_number p) =
          PhoneNumberHasher.normalize_phone_number p := by
  refine ⟨?_, ?_, ?_, ?_⟩
  · unfold PhoneNumberHasher.hash_phone_number
    rw [if_neg hp]
  · show Except.ok (mac (PhoneNumberHasher.normalize_phone_number "+91 98-76-543-210")) =
      Except.ok (mac (PhoneNumberHasher.normalize_phone_number "9876543210"))
    norm_num [show PhoneNumberHasher.normalize_phone_number "+91 98-76-543-210" =
      PhoneNumberHasher.normalize_phone_number "9876543210" from by decide]
  · show Except.ok (mac (PhoneNumberHasher.normalize_phone_number "9876543210")) =
      Except.ok (mac (PhoneNumberHasher.normalize_phone_number "919876543210"))
    norm_num [show PhoneNumberHasher.normalize_phone_number "9876543210" =
      PhoneNumberHasher.normalize_phone_number "919876543210" from by decide]
  · exact PhoneNumberHasher.normalize_of_digits _
      (PhoneNumberHasher.normalize_mem_isDigit p) h91

/-- Witness for C7's amended theorem at `mac = id`, `p = "919876543210"`. -/
theorem phone_hash_format_invariant_witness :
    PhoneNumberHasher.hash_phone_number id "919876543210" =
        Except.ok (id (PhoneNumberHasher.normalize_phone_number "919876543210"))
      ∧ PhoneNumberHasher.hash_phone_number id "+91 98-76-543-210" =
          PhoneNumberHasher.hash_phone_number id "9876543210"
      ∧ PhoneNumberHasher.hash_phone_number id "9876543210" =
          PhoneNumberHasher.hash_phone_number id "919876543210"
      ∧ PhoneNumberHasher.normalize_phone_number
            (PhoneNumberHasher.normalize_phone_number "919876543210") =
          PhoneNumberHasher.normalize_phone_number "919876543210" :=
  phone_hash_format_invariant id "919876543210" (by decide) (by decide)

/-- C10: `verify_phone_number` is total: on the empty phone number, or on any
input whose hashing fails with the `InvalidInput` error, it returns `false`
rather than propagating the error. -/
theorem verify_phone_number_total (mac : String → String) (p hashValue e : String)
    (he : PhoneNumberHasher.hash_phone_number mac p = Except.error e) :
    PhoneNumberHasher.verify_phone_number mac p hashValue = false
      ∧ PhoneNumberHasher.verify_phone_number mac "" hashValue = false := by
  constructor
  · unfold PhoneNumberHasher.verify_phone_number
    rw [he]
  · rfl

/-- Witness for C10 at the empty phone number. -/
theorem verify_phone_number_total_witness :
    PhoneNumberHasher.verify_phone_number id "" "deadbeef" = false
      ∧ PhoneNumberHasher.verify_phone_number id "" "deadbeef" = false :=
  verify_phone_number_total id "" "deadbeef" "Phone number cannot be empty" rfl

/-! ## OTP records (`src/models/auth.py`) and verification
(`src/services/auth_service.py`, `AuthService.verify_otp`) -/

/-- Embedding of `OTPRecord` (`src/models/auth.py`): times are seconds. -/
structure OTPRecord where
  otp_hash : String
  attempts : Nat
  created_at : Nat
  expires_at : Nat
deriving Repr, DecidableEq

/-- Embedding of `OTPRecord.is_expired`: `utcnow() > expires_at`. -/
def OTPRecord.is_expired (now : Nat) (r : OTPRecord) : Bool :=
  r.expires_at < now

/-- Embedding of `OTPRecord.is_locked`: `attempts >= 3`. -/
def OTPRecord.is_locked (r : OTPRecord) : Bool :=
  3 ≤ r.attempts

/-- Embedding of `OTPRecord.increment_attempts`. -/
def OTPRecord.increment_attempts (r : OTPRecord) : OTPRecord :=
  { r with attempts := r.attempts + 1 }

/-- Embedding of `AuthResponse` (`src/models/auth.py`). -/
structure AuthResponse where
  success : Bool
  message : String
  token : Option String
  expires_at : Option Nat
  user_id : Option String
deriving Repr, DecidableEq

/-- Embedding of `AuthService.verify_otp`. Parameters stand for the service's
collaborators: `hashOtp` is `AuthService.hash_otp` (HMAC-SHA256 under the
configured secret, kept opaque), `phoneHash` the phone hash computed for the
request, and `tokenStr`/`tokenExp` the JWT and expiry that
`generate_jwt_token` would produce. `store` is the record at the request's key
`(OTP#phone_hash, CURRENT)`; the function returns the response together with
the record left at that key (`update_item` writes the incremented attempts,
`delete_item` leaves `none`). In the mismatch branch `attempts < 3` holds, so
the `Nat` subtraction `3 - attempts` agrees with Python's. -/
def AuthService.verify_otp (hashOtp : String → String) (now : Nat)
    (phoneHash tokenStr : String) (tokenExp : Nat)
    (store : Option OTPRecord) (otp : String) :
    AuthResponse × Option OTPRecord :=
  match store with
  | none =>
    ({ success := false, message := "Invalid or expired OTP",
       token := none, expires_at := none, user_id := none }, none)
  | some r =>
    if r.is_expired now then
      ({ success := false, message := "OTP has expired. Please request a new one.",
         token := none, expires_at := none, user_id := none }, none)
    else if r.is_locked then
      ({ success := false, message := "Too many failed attempts. Please request a new OTP.",
         token := none, expires_at := none, user_id := none }, some r)
    else if !(hashOtp otp == r.otp_hash) then
      let r2 := r.increment_attempts
      let remaining := 3 - r2.attempts
      if 0 < remaining then
        ({ success := false,
           message := "Invalid OTP. " ++ toString remaining ++ " attempt(s) remaining.",
           token := none, expires_at := none, user_id := none }, some r2)
      else
        ({ success := false, message := "Too many failed attempts. Please request a new OTP.",
           token := none, expires_at := none, user_id := none }, some r2)
    else
      ({ success := true, message := "Authentication successful",
         token := some tokenStr, expires_at := some tokenExp,
         user_id := some (phoneHash.take 16) }, none)

/-- C2: a record past its expiry is reported as expired — never locked, even at
`attempts = 3` — and is deleted; the result does not depend on the submitted
code or the hash function, so expiry is decided before the lock check and
before any hash comparison. -/
theorem verify_otp_expired (hashOtp : String → String) (now : Nat)
    (phoneHash tokenStr : String) (tokenExp : Nat) (r : OTPRecord) (otp : String)
    (hexp : r.expires_at < now) :
    AuthService.verify_otp hashOtp now phoneHash tokenStr tokenExp (some r) otp =
      ({ success := false, message := "OTP has expired. Please request a new one.",
         token := none, expires_at := none, user_id := none }, none) := by
  simp only [AuthService.verify_otp]
  rw [if_pos (by simpa [OTPRecord.is_expired] using hexp)]

/-- Witness for C2 at an expired record that is also locked (`attempts = 3`). -/
theorem verify_otp_expired_witness :
    AuthService.verify_otp id 100 "ph" "tok" 0
        (some { otp_hash := "h", attempts := 3, created_at := 0, expires_at := 99 }) "000000" =
      ({ success := false, message := "OTP has expired. Please request a new one.",
         token := none, expires_at := none, user_id := none }, none) :=
  verify_otp_expired id 100 "ph" "tok" 0
    { otp_hash := "h", attempts := 3, created_at := 0, expires_at := 99 } "000000"
    (by decide)

/-- C3: an unexpired record with `attempts ≥ 3` yields the too-many-attempts
failure and the record is left unchanged in the store; the result does not
depend on the submitted code or on the hash function (the stored hash is never
consulted), so the equation holds even when the submitted code is correct. -/
theorem verify_otp_locked (hashOtp : String → String) (now : Nat)
    (phoneHash tokenStr : String) (tokenExp : Nat) (r : OTPRecord) (otp : String)
    (hexp : now ≤ r.expires_at) (hlock : 3 ≤ r.attempts) :
    AuthService.verify_otp hashOtp now phoneHash tokenStr tokenExp (some r) otp =
      ({ success := false, message := "Too many failed attempts. Please request a new OTP.",
         token := none, expires_at := none, user_id := none }, some r) := by
  simp only [AuthService.verify_otp]
  rw [if_neg (by simp [OTPRecord.is_expired]; omega),
    if_pos (by simpa [OTPRecord.is_locked] using hlock)]

/-- Witness for C3 where the submitted code is the correct one
(`hashOtp otp = r.otp_hash` under `hashOtp = id`). -/
theorem verify_otp_locked_witness :
    AuthService.verify_otp id 0 "ph" "tok" 0
        (some { otp_hash := "123456", attempts := 3, created_at := 0, expires_at := 10 }) "123456" =
      ({ success := false, message := "Too many failed attempts. Please request a new OTP.",
         token := none, expires_at := none, user_id := none }, some
          { otp_hash := "123456", attempts := 3, created_at := 0, expires_at := 10 }) :=
  verify_otp_locked id 0 "ph" "tok" 0
    { otp_hash := "123456", attempts := 3, created_at := 0, expires_at := 10 } "123456"
    (by decide) (by decide)

/-- Closed form of the mismatch branch of `verify_otp`: unexpired, unlocked,
submitted code does not hash to the stored hash. -/
theorem AuthService.verify_otp_mismatch_eq (hashOtp : String → String) (now : Nat)
    (phoneHash tokenStr : String) (tokenExp : Nat) (r : OTPRecord) (otp : String)
    (hexp : now ≤ r.expires_at) (hlock : r.attempts < 3)
    (hne : (hashOtp otp == r.otp_hash) = false) :
    AuthService.verify_otp hashOtp now phoneHash tokenStr tokenExp (some r) otp =
      (if r.attempts + 1 < 3 then
        ({ success := false,
           message := "Invalid OTP. " ++ toString (3 - (r.attempts + 1)) ++ " attempt(s) remaining.",
           token := none, expires_at := none, user_id := none }, some r.increment_attempts)
      else
        ({ success := false, message := "Too many failed attempts. Please request a new OTP.",
           token := none, expires_at := none, user_id := none }, some r.increment_attempts)) := by
  simp only [AuthService.verify_otp]
  rw [if_neg (by simp [OTPRecord.is_expired]; omega),
    if_neg (by simp [OTPRecord.is_locked]; omega),
    if_pos (by simp [hne])]
  simp only [OTPRecord.increment_attempts]
  have hiff : (0 < 3 - (r.attempts + 1)) ↔ (r.attempts + 1 < 3) := by omega
  by_cases h : r.attempts + 1 < 3
  · rw [if_pos (hiff.mpr h), if_pos h]
  · rw [if_neg (fun hh => h (hiff.mp hh)), if_neg h]

/-- Closed form of the success branch of `verify_otp`: unexpired, unlocked,
submitted code hashes to the stored hash. -/
theorem AuthService.verify_otp_success_eq (hashOtp : String → String) (now : Nat)
    (phoneHash tokenStr : String) (tokenExp : Nat) (r : OTPRecord) (otp : String)
    (hexp : now ≤ r.expires_at) (hlock : r.attempts < 3)
    (heq : (hashOtp otp == r.otp_hash) = true) :
    AuthService.verify_otp hashOtp now phoneHash tokenStr tokenExp (some r) otp =
      ({ success := true, message := "Authentication successful",
         token := some tokenStr, expires_at := some tokenExp,
         user_id := some (phoneHash.take 16) }, none) := by
  simp only [AuthService.verify_otp]
  rw [if_neg (by simp [OTPRecord.is_expired]; omega),
    if_neg (by simp [OTPRecord.is_locked]; omega),
    if_neg (by simp [heq])]

/-- C4: on an unexpired, unlocked record a wrong code increments `attempts` by
exactly one and persists the incremented record; the failure carries the
remaining-attempts count `3 - (attempts + 1)` and switches to the lockout
message when that count reaches 0, so from a fresh record three consecutive
wrong codes produce remaining counts 2, 1, and then the lockout message. -/
theorem verify_otp_mismatch_increments (hashOtp : String → String) (now : Nat)
    (phoneHash tokenStr : String) (tokenExp : Nat) (r : OTPRecord)
    (otp otp2 otp3 : String)
    (hexp : now ≤ r.expires_at) (hlock : r.attempts < 3)
    (hne : (hashOtp otp == r.otp_hash) = false)
    (hne2 : (hashOtp otp2 == r.otp_hash) = false)
    (hne3 : (hashOtp otp3 == r.otp_hash) = false) :
    ((AuthService.verify_otp hashOtp now phoneHash tokenStr tokenExp (some r) otp).2 =
        some r.increment_attempts)
    ∧ (AuthService.verify_otp hashOtp now phoneHash tokenStr tokenExp (some r) otp).1.success =
        false
    ∧ (AuthService.verify_otp hashOtp now phoneHash tokenStr tokenExp (some r) otp).1.message =
        (if r.attempts + 1 < 3 then
          "Invalid OTP. " ++ toString (3 - (r.attempts + 1)) ++ " attempt(s) remaining."
        else "Too many failed attempts. Please request a new OTP.")
    ∧ (r.attempts = 0 →
        (AuthService.verify_otp hashOtp now phoneHash tokenStr tokenExp (some r) otp).1.message =
            "Invalid OTP. 2 attempt(s) remaining."
        ∧ (AuthService.verify_otp hashOtp now phoneHash tokenStr tokenExp
              (AuthService.verify_otp hashOtp now phoneHash tokenStr tokenExp
                (some r) otp).2 otp2).1.message =
            "Invalid OTP. 1 attempt(s) remaining."
        ∧ (AuthService.verify_otp hashOtp now phoneHash tokenStr tokenExp
              (AuthService.verify_otp hashOtp now phoneHash tokenStr tokenExp
                (AuthService.verify_otp hashOtp now phoneHash tokenStr tokenExp
                  (some r) otp).2 otp2).2 otp3).1.message =
            "Too many failed attempts. Please request a new OTP.") := by
  obtain ⟨oh, a, ca, ea⟩ := r
  simp only at hexp hlock hne hne2 hne3
  rw [AuthService.verify_otp_mismatch_eq hashOtp now phoneHash tokenStr tokenExp _ otp hexp hlock hne]
  refine ⟨?_, ?_, ?_, ?_⟩
  · split <;> rfl
  · split <;> rfl
  · split <;> rfl
  · intro ha
    subst ha
    rw [if_pos (by simp)]
    simp only [OTPRecord.increment_attempts]
    rw [AuthService.verify_otp_mismatch_eq hashOtp now phoneHash tokenStr tokenExp _ otp2 hexp
      (by simp) hne2]
    rw [if_pos (by simp)]
    simp only [OTPRecord.increment_attempts]
    rw [AuthService.verify_otp_mismatch_eq hashOtp now phoneHash tokenStr tokenExp _ otp3 hexp
      (by simp) hne3]
    rw [if_neg (by simp)]
    exact ⟨rfl, rfl, rfl⟩

/-- Witness for C4 at a fresh record and three wrong codes under `hashOtp = id`. -/
theorem verify_otp_mismatch_increments_witness :
    ((AuthService.verify_otp id 0 "ph" "tok" 0
        (some { otp_hash := "h", attempts := 0, created_at := 0, expires_at := 10 }) "000000").2 =
        some (OTPRecord.increment_attempts
          { otp_hash := "h", attempts := 0, created_at := 0, expires_at := 10 }))
    ∧ (AuthService.verify_otp id 0 "ph" "tok" 0
        (some { otp_hash := "h", attempts := 0, created_at := 0, expires_at := 10 }) "000000").1.success =
        false
    ∧ (AuthService.verify_otp id 0 "ph" "tok" 0
        (some { otp_hash := "h", attempts := 0, created_at := 0, expires_at := 10 }) "000000").1.message =
        (if 0 + 1 < 3 then
          "Invalid OTP. " ++ toString (3 - (0 + 1)) ++ " attempt(s) remaining."
        else "Too many failed attempts. Please request a new OTP.")
    ∧ (0 = 0 →
        (AuthService.verify_otp id 0 "ph" "tok" 0
            (some { otp_hash := "h", attempts := 0, created_at := 0, expires_at := 10 }) "000000").1.message =
            "Invalid OTP. 2 attempt(s) remaining."
        ∧ (AuthService.verify_otp id 0 "ph" "tok" 0
              (AuthService.verify_otp id 0 "ph" "tok" 0
                (some { otp_hash := "h", attempts := 0, created_at := 0, expires_at := 10 })
                "000000").2 "111111").1.message =
            "Invalid OTP. 1 attempt(s) remaining."
        ∧ (AuthService.verify_otp id 0 "ph" "tok" 0
              (AuthService.verify_otp id 0 "ph" "tok" 0
                (AuthService.verify_otp id 0 "ph" "tok" 0
                  (some { otp_hash := "h", attempts := 0, created_at := 0, expires_at := 10 })
                  "000000").2 "111111").2 "222222").1.message =
            "Too many failed attempts. Please request a new OTP.") :=
  verify_otp_mismatch_increments id 0 "ph" "tok" 0
    { otp_hash := "h", attempts := 0, created_at := 0, expires_at := 10 }
    "000000" "111111" "222222" (by decide) (by decide) (by decide) (by decide) (by decide)

/-- C5: on an unexpired, unlocked record a matching code deletes the record and
returns success carrying the bearer token and user identity; re-running
`verify_otp` on the resulting store with the same phone and code then hits the
absent-record branch and fails with the "Invalid or expired OTP" response, so
a code cannot be replayed. -/
theorem verify_otp_success_single_use (hashOtp : String → String) (now : Nat)
    (phoneHash tokenStr : String) (tokenExp : Nat) (r : OTPRecord) (otp : String)
    (hexp : now ≤ r.expires_at) (hlock : r.attempts < 3)
    (heq : (hashOtp otp == r.otp_hash) = true) :
    AuthService.verify_otp hashOtp now phoneHash tokenStr tokenExp (some r) otp =
      ({ success := true, message := "Authentication successful",
         token := some tokenStr, expires_at := some tokenExp,
         user_id := some (phoneHash.take 16) }, none)
    ∧ AuthService.verify_otp hashOtp now phoneHash tokenStr tokenExp
        (AuthService.verify_otp hashOtp now phoneHash tokenStr tokenExp (some r) otp).2 otp =
      ({ success := false, message := "Invalid or expired OTP",
         token := none, expires_at := none, user_id := none }, none) := by
  have h1 := AuthService.verify_otp_success_eq hashOtp now phoneHash tokenStr tokenExp r otp
    hexp hlock heq
  exact ⟨h1, by rw [h1]; rfl⟩

/-- Witness for C5 under `hashOtp = id` with matching code. -/
theorem verify_otp_success_single_use_witness :
    AuthService.verify_otp id 0 "ph" "tok" 7
      (some { otp_hash := "123456", attempts := 2, created_at := 0, expires_at := 10 }) "123456" =
      ({ success := true, message := "Authentication successful",
         token := some "tok", expires_at := some 7,
         user_id := some (String.take "ph" 16) }, none)
    ∧ AuthService.verify_otp id 0 "ph" "tok" 7
        (AuthService.verify_otp id 0 "ph" "tok" 7
          (some { otp_hash := "123456", attempts := 2, created_at := 0, expires_at := 10 })
          "123456").2 "123456" =
      ({ success := false, message := "Invalid or expired OTP",
         token := none, expires_at := none, user_id := none }, none) :=
  verify_otp_success_single_use id 0 "ph" "tok" 7
    { otp_hash := "123456", attempts := 2, created_at := 0, expires_at := 10 } "123456"
    (by decide) (by decide) (by decide)

/-- C1 (counterexample): the absent-record failure and the wrong-code failure
are distinguishable: at a record that exists, is unexpired and unlocked, a
wrong code yields the message "Invalid OTP. 2 attempt(s) remaining.", while an
absent record yields "Invalid or expired OTP". -/
theorem verify_otp_notfound_mismatch_distinguishable :
    (AuthService.verify_otp id 0 "ph" "tok" 0
        (some { otp_hash := "h", attempts := 0, created_at := 0, expires_at := 10 })
        "000000").1.message ≠
      (AuthService.verify_otp id 0 "ph" "tok" 0 none "000000").1.message := by
  decide

/-- C1 (amended): the absent-record failure and the wrong-code failure agree in
their externally observable failure category — both have `success = false`, no
token and no user identity — but their message texts differ: the absent record
answers "Invalid or expired OTP" while a wrong code on a live record answers
with a remaining-attempts count (or the lockout text), never with
"Invalid or expired OTP". -/
theorem verify_otp_notfound_mismatch_category (hashOtp : String → String) (now : Nat)
    (phoneHash tokenStr : String) (tokenExp : Nat) (r : OTPRecord) (otp : String)
    (hexp : now ≤ r.expires_at) (hlock : r.attempts < 3)
    (hne : (hashOtp otp == r.otp_hash) = false) :
    (AuthService.verify_otp hashOtp now phoneHash tokenStr tokenExp (some r) otp).1.success =
        false
    ∧ (AuthService.verify_otp hashOtp now phoneHash tokenStr tokenExp (some r) otp).1.token =
        none
    ∧ (AuthService.verify_otp hashOtp now phoneHash tokenStr tokenExp (some r) otp).1.user_id =
        none
    ∧ (AuthService.verify_otp hashOtp now phoneHash tokenStr tokenExp none otp).1.success = false
    ∧ (AuthService.verify_otp hashOtp now phoneHash tokenStr tokenExp none otp).1.token = none
    ∧ (AuthService.verify_otp hashOtp now phoneHash tokenStr tokenExp none otp).1.user_id = none
    ∧ (AuthService.verify_otp hashOtp now phoneHash tokenStr tokenExp none otp).1.message =
        "Invalid or expired OTP"
    ∧ (AuthService.verify_otp hashOtp now phoneHash tokenStr tokenExp (some r) otp).1.message ≠
        "Invalid or expired OTP" := by
  rw [AuthService.verify_otp_mismatch_eq hashOtp now phoneHash tokenStr tokenExp r otp
    hexp hlock hne]
  obtain ⟨oh, a, ca, ea⟩ := r
  simp only at hlock
  refine ⟨?_, ?_, ?_, rfl, rfl, rfl, rfl, ?_⟩
  · split <;> rfl
  · split <;> rfl
  · split <;> rfl
  · interval_cases a <;> simp <;> decide

/-- Witness for C1's amended theorem at a live, unexpired, unlocked record and
a wrong code under `hashOtp = id`. -/
theorem verify_otp_notfound_mismatch_category_witness :
    (AuthService.verify_otp id 0 "ph" "tok" 0
        (some { otp_hash := "h", attempts := 0, created_at := 0, expires_at := 10 })
        "000000").1.success = false
    ∧ (AuthService.verify_otp id 0 "ph" "tok" 0
        (some { otp_hash := "h", attempts := 0, created_at := 0, expires_at := 10 })
        "000000").1.token = none
    ∧ (AuthService.verify_otp id 0 "ph" "tok" 0
        (some { otp_hash := "h", attempts := 0, created_at := 0, expires_at := 10 })
        "000000").1.user_id = none
    ∧ (AuthService.verify_otp id 0 "ph" "tok" 0 none "000000").1.success = false
    ∧ (AuthService.verify_otp id 0 "ph" "tok" 0 none "000000").1.token = none
    ∧ (AuthService.verify_otp id 0 "ph" "tok" 0 none "000000").1.user_id = none
    ∧ (AuthService.verify_otp id 0 "ph" "tok" 0 none "000000").1.message =
        "Invalid or expired OTP"
    ∧ (AuthService.verify_otp id 0 "ph" "tok" 0
        (some { otp_hash := "h", attempts := 0, created_at := 0, expires_at := 10 })
        "000000").1.message ≠ "Invalid or expired OTP" :=
  verify_otp_notfound_mismatch_category id 0 "ph" "tok" 0
    { otp_hash := "h", attempts := 0, created_at := 0, expires_at := 10 } "000000"
    (by decide) (by decide) (by decide)

/-! ## OTP issuance (`AuthService.generate_otp`, `AuthService.send_otp`) -/

/-- Decimal digit characters of `n`, most significant first (the embedding of
Python's decimal rendering of a non-negative int). -/
def decDigits (n : Nat) : List Char :=
  if _h : n < 10 then [Nat.digitChar n]
  else decDigits (n / 10) ++ [Nat.digitChar (n % 10)]
decreasing_by exact Nat.div_lt_self (by omega) (by omega)

/-- Embedding of `AuthService.generate_otp`'s formatting step: the random
draw below 1000000 is the parameter `rnd`, rendered by the format spec `06d`
(decimal digits, left-padded with zeros to width 6). -/
def AuthService.generate_otp (rnd : Nat) : String :=
  String.mk (List.replicate (6 - (decDigits rnd).length) '0' ++ decDigits rnd)

/-- Embedding of `Config.is_local` (`src/utils/config.py`): the deployment is
local/development exactly when the environment flag equals `"development"`. -/
def Config.is_local (environment : String) : Bool :=
  environment == "development"

/-- Embedding of `OTPResponse` (`src/models/auth.py`). -/
structure OTPResponse where
  success : Bool
  message : String
  expires_in_minutes : Option Nat
deriving Repr, DecidableEq

/-- Embedding of `OTPRecord.create`: fresh record with `attempts = 0` expiring
`expiry_minutes` minutes after `now`. -/
def OTPRecord.create (otpHash : String) (now expiryMinutes : Nat) : OTPRecord :=
  { otp_hash := otpHash, attempts := 0, created_at := now,
    expires_at := now + expiryMinutes * 60 }

/-- Embedding of `AuthService.send_otp`. The record is stored (overwriting the
key) before the SMS dispatch, so it is present in the store on every branch.
`smsOk` is the outcome of the `sns_client.publish` call; on failure the code
returns the degraded dev-mode success (which embeds the plaintext code in the
message) when `Config.is_local`, and otherwise re-raises, which the outer
handler converts to the generic failure response. -/
def AuthService.send_otp (environment : String) (hashOtp : String → String)
    (now : Nat) (otp : String) (smsOk : Bool) : OTPResponse × Option OTPRecord :=
  let record := OTPRecord.create (hashOtp otp) now 10
  if smsOk then
    ({ success := true, message := "OTP sent successfully",
       expires_in_minutes := some 10 }, some record)
  else if Config.is_local environment then
    ({ success := true, message := "OTP generated (dev mode): " ++ otp,
       expires_in_minutes := some 10 }, some record)
  else
    ({ success := false, message := "Failed to send OTP. Please try again.",
       expires_in_minutes := none }, some record)

/-- Digit characters below 10 satisfy `Char.isDigit`. -/
theorem digitChar_isDigit : ∀ m < 10, (Nat.digitChar m).isDigit := by decide

/-- Every character produced by `decDigits` is a digit. -/
theorem decDigits_all_digit (n : Nat) : ∀ c ∈ decDigits n, c.isDigit := by
  induction n using Nat.strong_induction_on with
  | _ n ih =>
    intro c hc
    rw [decDigits] at hc
    split at hc
    · rename_i h
      simp only [List.mem_singleton] at hc
      exact hc ▸ digitChar_isDigit n h
    · rename_i h
      rcases List.mem_append.mp hc with h1 | h2
      · exact ih (n / 10) (Nat.div_lt_self (by omega) (by omega)) c h1
      · simp only [List.mem_singleton] at h2
        exact h2 ▸ digitChar_isDigit (n % 10) (Nat.mod_lt n (by omega))

/-- `decDigits` never returns the empty list. -/
theorem decDigits_ne_nil (n : Nat) : decDigits n ≠ [] := by
  rw [decDigits]
  split
  · simp
  · simp

/-- The generated OTP string is non-empty and consists only of digits. -/
theorem generate_otp_digits (rnd : Nat) :
    (AuthService.generate_otp rnd).data ≠ []
      ∧ ∀ c ∈ (AuthService.generate_otp rnd).data, c.isDigit := by
  constructor
  · simp only [AuthService.generate_otp, String.data]
    intro h
    exact decDigits_ne_nil rnd (List.append_eq_nil.mp h).2
  · intro c hc
    simp only [AuthService.generate_otp, String.data] at hc
    rcases List.mem_append.mp hc with h1 | h2
    · rw [List.eq_of_mem_replicate h1]
      decide
    · exact decDigits_all_digit rnd c h2

/-- A string with no digit characters cannot contain a non-empty all-digit
string as a contiguous substring. -/
theorem no_digit_substring (s t : String)
    (hs : ∀ c ∈ s.data, ¬ c.isDigit) (ht : t.data ≠ [])
    (htd : ∀ c ∈ t.data, c.isDigit) :
    ¬ ∃ l r, s.data = l ++ t.data ++ r := by
  rintro ⟨l, r, h⟩
  rcases List.exists_mem_of_ne_nil t.data ht with ⟨c, hc⟩
  have hmem : c ∈ s.data := by
    rw [h]
    exact List.mem_append.mpr (Or.inl (List.mem_append.mpr (Or.inr hc)))
  exact hs c hmem (htd c hc)

/-- C6: when the deployment is flagged production (environment flag differs
from the local/development value), the `send_otp` response is either the plain
success or the generic failure, a failed SMS dispatch yields exactly the
generic failure, and the response message never contains the generated
plaintext OTP code as a substring: the dev-mode message that surfaces the code
is reachable only when the deployment is flagged non-production. -/
theorem send_otp_production_no_code (environment : String) (hashOtp : String → String)
    (now rnd : Nat) (smsOk : Bool) (henv : environment ≠ "development") :
    ((AuthService.send_otp environment hashOtp now (AuthService.generate_otp rnd) smsOk).1.message =
        "OTP sent successfully"
      ∨ (AuthService.send_otp environment hashOtp now (AuthService.generate_otp rnd) smsOk).1.message =
        "Failed to send OTP. Please try again.")
    ∧ (smsOk = false →
        (AuthService.send_otp environment hashOtp now (AuthService.generate_otp rnd) smsOk).1 =
          { success := false, message := "Failed to send OTP. Please try again.",
            expires_in_minutes := none })
    ∧ ¬ ∃ l r,
        (AuthService.send_otp environment hashOtp now (AuthService.generate_otp rnd) smsOk).1.message.data =
          l ++ (AuthService.generate_otp rnd).data ++ r := by
  have hlocal : Config.is_local environment = false := by
    simp only [Config.is_local, beq_eq_false_iff_ne, ne_eq]
    exact henv
  obtain ⟨hne, hdig⟩ := generate_otp_digits rnd
  cases smsOk
  · simp only [AuthService.send_otp, hlocal, Bool.false_eq_true, if_false]
    refine ⟨Or.inr ?_, fun _ => ?_, ?_⟩
    · simp
    · simp
    · intro hsub
      refine no_digit_substring
        { data := "Failed to send OTP. Please try again.".data } _
        (by decide) hne hdig ?_
      simpa using hsub
  · simp only [AuthService.send_otp, if_true]
    refine ⟨Or.inl ?_, ?_, ?_⟩
    · simp
    · exact fun h => absurd h (by decide)
    · intro hsub
      refine no_digit_substring
        { data := "OTP sent successfully".data } _
        (by decide) hne hdig ?_
      simpa using hsub

/-- Witness for C6 at `environment = "production"`, `rnd = 42`, failed SMS. -/
theorem send_otp_production_no_code_witness :
    ((AuthService.send_otp "production" id 0 (AuthService.generate_otp 42) false).1.message =
        "OTP sent successfully"
      ∨ (AuthService.send_otp "production" id 0 (AuthService.generate_otp 42) false).1.message =
        "Failed to send OTP. Please try again.")
    ∧ (false = false →
        (AuthService.send_otp "production" id 0 (AuthService.generate_otp 42) false).1 =
          { success := false, message := "Failed to send OTP. Please try again.",
            expires_in_minutes := none })
    ∧ ¬ ∃ l r,
        (AuthService.send_otp "production" id 0 (AuthService.generate_otp 42) false).1.message.data =
          l ++ (AuthService.generate_otp 42).data ++ r :=
  send_otp_production_no_code "production" id 0 42 false (by decide)

/-! ## Field encryption wrapper (`src/utils/security.py`,
`DynamoDBEncryptionWrapper.encrypt_item`) -/

/-- Python values that can appear in a DynamoDB item, with the truthiness and
`str()` behaviour `encrypt_item` relies on. -/
inductive PyVal where
  | str (s : String)
  | int (n : Int)
  | bool (b : Bool)
  | none
deriving Repr, DecidableEq

/-- Python truthiness for the modelled values. -/
def PyVal.truthy : PyVal → Bool
  | .str s => !(s == "")
  | .int n => !(n == 0)
  | .bool b => b
  | .none => false

/-- Python `str()` for the modelled values. -/
def PyVal.pyStr : PyVal → String
  | .str s => s
  | .int n => toString n
  | .bool true => "True"
  | .bool false => "False"
  | .none => "None"

/-- Dict lookup (`field in d` plus `d[field]`): first matching key. -/
def dictGet : List (String × PyVal) → String → Option PyVal
  | [], _ => Option.none
  | (k2, v) :: rest, k => if k2 = k then some v else dictGet rest k

/-- Dict assignment `d[k] = v`: replace in place, else append — the iteration
order a Python dict preserves. -/
def dictSet : List (String × PyVal) → String → PyVal → List (String × PyVal)
  | [], k, v => [(k, v)]
  | (k2, v2) :: rest, k, v =>
    if k2 = k then (k2, v) :: rest else (k2, v2) :: dictSet rest k v

/-- Loop body of `encrypt_item`: when the field is present with a truthy value,
replace it by the encryption of its `str()` form and set the companion
`<field>_encrypted` marker to `True`; otherwise leave the dict unchanged. -/
def encStep (enc : String → String) (acc : List (String × PyVal))
    (field : String) : List (String × PyVal) :=
  match dictGet acc field with
  | some v =>
    if v.truthy then
      dictSet (dictSet acc field (PyVal.str (enc v.pyStr)))
        (field ++ "_encrypted") (PyVal.bool true)
    else acc
  | Option.none => acc

/-- Embedding of `DynamoDBEncryptionWrapper.encrypt_item`: starting from a
copy of the item, run the loop body over `fields_to_encrypt`; `enc` is
`DataEncryptor.encrypt` of the wrapped encryptor. The input item is never
written to (the embedding is pure, mirroring `item.copy()`). -/
def DynamoDBEncryptionWrapper.encrypt_item (enc : String → String)
    (item : List (String × PyVal)) (fields_to_encrypt : List String) :
    List (String × PyVal) :=
  fields_to_encrypt.foldl (encStep enc) item

/-- Looking up the key just set. -/
theorem dictGet_dictSet_self (m : List (String × PyVal)) (k : String) (v : PyVal) :
    dictGet (dictSet m k v) k = some v := by
  induction m with
  | nil => simp [dictSet, dictGet]
  | cons hd tl ih =>
    obtain ⟨k2, v2⟩ := hd
    by_cases h : k2 = k
    · simp [dictSet, dictGet, h]
    · simp [dictSet, dictGet, h, ih]

/-- Setting one key leaves every other key's lookup unchanged. -/
theorem dictGet_dictSet_ne (m : List (String × PyVal)) (k k2 : String) (v : PyVal)
    (h : k ≠ k2) : dictGet (dictSet m k v) k2 = dictGet m k2 := by
  induction m with
  | nil => simp [dictSet, dictGet, h]
  | cons hd tl ih =>
    obtain ⟨k3, v3⟩ := hd
    by_cases h3 : k3 = k
    · subst h3
      simp [dictSet, dictGet, h]
    · simp [dictSet, dictGet, h3, ih]

/-- A field name differs from its own companion marker name. -/
theorem marker_ne (f : String) : f ≠ f ++ "_encrypted" := by
  intro h
  have hlen := congrArg String.length h
  rw [String.length_append] at hlen
  have h10 : "_encrypted".length = 10 := rfl
  omega

/-- Companion marker names are injective in the field name. -/
theorem marker_inj (f g : String) (h : f ++ "_encrypted" = g ++ "_encrypted") :
    f = g := by
  have hd := congrArg String.data h
  rw [String.data_append, String.data_append] at hd
  have := List.append_cancel_right hd
  exact String.ext this

/-- The loop body only touches the processed field and its marker. -/
theorem encStep_preserves (enc : String → String) (acc : List (String × PyVal))
    (field k : String) (h1 : k ≠ field) (h2 : k ≠ field ++ "_encrypted") :
    dictGet (encStep enc acc field) k = dictGet acc k := by
  unfold encStep
  cases hv : dictGet acc field with
  | none => rfl
  | some v =>
    dsimp only
    by_cases ht : v.truthy
    · rw [if_pos ht, dictGet_dictSet_ne _ _ _ _ (fun he => h2 he.symm),
        dictGet_dictSet_ne _ _ _ _ (fun he => h1 he.symm)]
    · rw [if_neg ht]

/-- Keys outside the field list, and outside its marker names, survive the
whole loop unchanged. -/
theorem encrypt_item_foldl_preserves (enc : String → String) :
    ∀ (fields : List String) (acc : List (String × PyVal)) (k : String),
      k ∉ fields → (∀ g ∈ fields, k ≠ g ++ "_encrypted") →
      dictGet (fields.foldl (encStep enc) acc) k = dictGet acc k := by
  intro fields
  induction fields with
  | nil => intro acc k _ _; rfl
  | cons g gs ih =>
    intro acc k hk hm
    rw [List.foldl_cons, ih (encStep enc acc g) k (fun h => hk (List.mem_cons_of_mem g h))
      (fun h hh => hm h (List.mem_cons_of_mem g hh)),
      encStep_preserves enc acc g k (fun h => hk (h ▸ List.mem_cons_self g gs))
      (hm g (List.mem_cons_self g gs))]

/-- Behaviour of the `encrypt_item` loop on the listed fields themselves, for
field lists without duplicates and without marker-name collisions. -/
theorem encrypt_item_foldl_spec (enc : String → String) :
    ∀ (fields : List String) (acc : List (String × PyVal)),
      fields.Nodup → (∀ g ∈ fields, g ++ "_encrypted" ∉ fields) →
      (∀ f ∈ fields, ∀ v, dictGet acc f = some v → v.truthy = true →
          dictGet (fields.foldl (encStep enc) acc) f = some (PyVal.str (enc v.pyStr))
          ∧ dictGet (fields.foldl (encStep enc) acc) (f ++ "_encrypted") =
              some (PyVal.bool true))
      ∧ (∀ f ∈ fields, (∀ v, dictGet acc f = some v → v.truthy = false) →
          dictGet (fields.foldl (encStep enc) acc) f = dictGet acc f) := by
  intro fields
  induction fields with
  | nil =>
    intro acc _ _
    exact ⟨fun f hf => absurd hf (List.not_mem_nil f),
      fun f hf => absurd hf (List.not_mem_nil f)⟩
  | cons g gs ih =>
    intro acc hnd hmk
    have hgnotin : g ∉ gs := (List.nodup_cons.mp hnd).1
    have hndtl : gs.Nodup := (List.nodup_cons.mp hnd).2
    have hmktl : ∀ h ∈ gs, h ++ "_encrypted" ∉ gs := fun h hh hc =>
      hmk h (List.mem_cons_of_mem g hh) (List.mem_cons_of_mem g hc)
    obtain ⟨ih1, ih2⟩ := ih (encStep enc acc g) hndtl hmktl
    constructor
    · intro f hf v hv ht
      rw [List.foldl_cons]
      rcases List.mem_cons.mp hf with hfg | hfgs
      · subst hfg
        have hstep : encStep enc acc f =
            dictSet (dictSet acc f (PyVal.str (enc v.pyStr)))
              (f ++ "_encrypted") (PyVal.bool true) := by
          unfold encStep
          rw [hv]
          dsimp only
          rw [if_pos ht]
        have hkeyne : ∀ h ∈ gs, f ≠ h ++ "_encrypted" := fun h hh he =>
          hmk h (List.mem_cons_of_mem f hh) (by rw [← he]; exact List.mem_cons_self f gs)
        have hmnotin : f ++ "_encrypted" ∉ gs := fun hh =>
          hmk f (List.mem_cons_self f gs) (List.mem_cons_of_mem f hh)
        have hmne : ∀ h ∈ gs, f ++ "_encrypted" ≠ h ++ "_encrypted" := fun h hh he =>
          hgnotin (marker_inj f h he ▸ hh)
        constructor
        · rw [encrypt_item_foldl_preserves enc gs _ f hgnotin hkeyne, hstep,
            dictGet_dictSet_ne _ _ _ _ (Ne.symm (marker_ne f)), dictGet_dictSet_self]
        · rw [encrypt_item_foldl_preserves enc gs _ (f ++ "_encrypted") hmnotin hmne,
            hstep, dictGet_dictSet_self]
      · have hne1 : f ≠ g := fun he => hgnotin (he ▸ hfgs)
        have hne2 : f ≠ g ++ "_encrypted" := fun he =>
          hmk g (List.mem_cons_self g gs) (he ▸ List.mem_cons_of_mem g hfgs)
        have hv2 : dictGet (encStep enc acc g) f = some v := by
          rw [encStep_preserves enc acc g f hne1 hne2]
          exact hv
        exact ih1 f hfgs v hv2 ht
    · intro f hf hfalse
      rw [List.foldl_cons]
      rcases List.mem_cons.mp hf with hfg | hfgs
      · subst hfg
        have hstep : encStep enc acc f = acc := by
          unfold encStep
          cases hv : dictGet acc f with
          | none => rfl
          | some v =>
            dsimp only
            rw [if_neg (by rw [hfalse v hv]; exact Bool.false_ne_true)]
        have hkeyne : ∀ h ∈ gs, f ≠ h ++ "_encrypted" := fun h hh he =>
          hmk h (List.mem_cons_of_mem f hh) (by rw [← he]; exact List.mem_cons_self f gs)
        rw [hstep, encrypt_item_foldl_preserves enc gs acc f hgnotin hkeyne]
      · have hne1 : f ≠ g := fun he => hgnotin (he ▸ hfgs)
        have hne2 : f ≠ g ++ "_encrypted" := fun he =>
          hmk g (List.mem_cons_self g gs) (he ▸ List.mem_cons_of_mem g hfgs)
        have heq : dictGet (encStep enc acc g) f = dictGet acc f :=
          encStep_preserves enc acc g f hne1 hne2
        have hfalse2 : ∀ v, dictGet (encStep enc acc g) f = some v → v.truthy = false :=
          fun v hv => hfalse v (heq ▸ hv)
        rw [ih2 f hfgs hfalse2, heq]

/-- C9 (counterexample): a listed field that is present but has a falsy value
(here the empty string) is not replaced and gets no companion marker, so
"exactly the listed fields that are present are replaced" fails. -/
theorem encrypt_item_skips_falsy :
    dictGet (DynamoDBEncryptionWrapper.encrypt_item id
        [("a", PyVal.str "")] ["a"]) "a" = some (PyVal.str "")
    ∧ dictGet (DynamoDBEncryptionWrapper.encrypt_item id
        [("a", PyVal.str "")] ["a"]) ("a" ++ "_encrypted") = Option.none := by
  decide

/-- C9 (amended): for a duplicate-free field list none of whose marker names
`g ++ "_encrypted"` are themselves listed, `encrypt_item` returns a new
mapping in which exactly the listed fields present with a truthy value are
replaced by the encryption of their `str()` form with the companion marker set
to `True`; listed fields that are absent or falsy are untouched, and every key
that is neither listed nor a listed field's marker name is unchanged. The
input mapping itself is not written to (the embedding is pure). -/
theorem encrypt_item_spec (enc : String → String) (item : List (String × PyVal))
    (fields : List String) (hnd : fields.Nodup)
    (hmk : ∀ g ∈ fields, g ++ "_encrypted" ∉ fields) :
    (∀ f ∈ fields, ∀ v, dictGet item f = some v → v.truthy = true →
        dictGet (DynamoDBEncryptionWrapper.encrypt_item enc item fields) f =
            some (PyVal.str (enc v.pyStr))
        ∧ dictGet (DynamoDBEncryptionWrapper.encrypt_item enc item fields)
            (f ++ "_encrypted") = some (PyVal.bool true))
    ∧ (∀ f ∈ fields, (∀ v, dictGet item f = some v → v.truthy = false) →
        dictGet (DynamoDBEncryptionWrapper.encrypt_item enc item fields) f =
          dictGet item f)
    ∧ (∀ k, k ∉ fields → (∀ g ∈ fields, k ≠ g ++ "_encrypted") →
        dictGet (DynamoDBEncryptionWrapper.encrypt_item enc item fields) k =
          dictGet item k) := by
  obtain ⟨h1, h2⟩ := encrypt_item_foldl_spec enc fields item hnd hmk
  exact ⟨h1, h2, fun k hk hm => encrypt_item_foldl_preserves enc fields item k hk hm⟩

/-- Witness for C9's amended theorem: encrypt field `"a"` of a two-field item. -/
theorem encrypt_item_spec_witness :
    (∀ f ∈ ["a"], ∀ v, dictGet [("a", PyVal.str "x"), ("b", PyVal.int 5)] f = some v →
        v.truthy = true →
        dictGet (DynamoDBEncryptionWrapper.encrypt_item id
            [("a", PyVal.str "x"), ("b", PyVal.int 5)] ["a"]) f =
            some (PyVal.str (id v.pyStr))
        ∧ dictGet (DynamoDBEncryptionWrapper.encrypt_item id
            [("a", PyVal.str "x"), ("b", PyVal.int 5)] ["a"])
            (f ++ "_encrypted") = some (PyVal.bool true))
    ∧ (∀ f ∈ ["a"],
        (∀ v, dictGet [("a", PyVal.str "x"), ("b", PyVal.int 5)] f = some v →
          v.truthy = false) →
        dictGet (DynamoDBEncryptionWrapper.encrypt_item id
            [("a", PyVal.str "x"), ("b", PyVal.int 5)] ["a"]) f =
          dictGet [("a", PyVal.str "x"), ("b", PyVal.int 5)] f)
    ∧ (∀ k, k ∉ ["a"] → (∀ g ∈ ["a"], k ≠ g ++ "_encrypted") →
        dictGet (DynamoDBEncryptionWrapper.encrypt_item id
            [("a", PyVal.str "x"), ("b", PyVal.int 5)] ["a"]) k =
          dictGet [("a", PyVal.str "x"), ("b", PyVal.int 5)] k) :=
  encrypt_item_spec id [("a", PyVal.str "x"), ("b", PyVal.int 5)] ["a"]
    (by decide) (by decide)

/-! ## Local-key encryption (`src/utils/security.py`, `DataEncryptor`):
base64 framing -/

/-- The standard base64 alphabet used by `base64.b64encode`. -/
def b64Alphabet : List Char :=
  "ABCDEFGHIJKLMNOPQRSTUVWXYZabcdefghijklmnopqrstuvwxyz0123456789+/".data

/-- Character for a six-bit group. -/
def b64Char (i : Nat) : Char := b64Alphabet.getD i '?'

/-- Six-bit value of an alphabet character. -/
def b64CharIdx (c : Char) : Option Nat := b64Alphabet.findIdx? (fun x => x == c)

/-- Base64 encoding of a byte list, three bytes to four characters, with `=`
padding on a trailing group of one or two bytes. -/
def b64encodeBytes : List Nat → List Char
  | [] => []
  | [a] => [b64Char (a / 4), b64Char (a % 4 * 16), '=', '=']
  | [a, b] => [b64Char (a / 4), b64Char (a % 4 * 16 + b / 16), b64Char (b % 16 * 4), '=']
  | a :: b :: c :: rest =>
    b64Char (a / 4) :: b64Char (a % 4 * 16 + b / 16) :: b64Char (b % 16 * 4 + c / 64) ::
      b64Char (c % 64) :: b64encodeBytes rest

/-- Embedding of `base64.b64encode(...).decode('utf-8')`. -/
def b64encode (l : List Nat) : String := String.mk (b64encodeBytes l)

/-- Base64 decoding, the inverse of `b64encodeBytes` on well-formed input. -/
def b64decodeChars : List Char → Option (List Nat)
  | [] => some []
  | c1 :: c2 :: c3 :: c4 :: rest =>
    match b64CharIdx c1, b64CharIdx c2 with
    | some s1, some s2 =>
      if c3 = '=' then
        if c4 = '=' ∧ rest = [] then some [s1 * 4 + s2 / 16] else Option.none
      else
        match b64CharIdx c3 with
        | some s3 =>
          if c4 = '=' then
            if rest = [] then some [s1 * 4 + s2 / 16, s2 % 16 * 16 + s3 / 4]
            else Option.none
          else
            match b64CharIdx c4 with
            | some s4 =>
              (b64decodeChars rest).map
                (fun tl => (s1 * 4 + s2 / 16) :: (s2 % 16 * 16 + s3 / 4) ::
                  (s3 % 4 * 64 + s4) :: tl)
            | Option.none => Option.none
        | Option.none => Option.none
    | _, _ => Option.none
  | _ => Option.none

/-- Embedding of `base64.b64decode`. -/
def b64decode (s : String) : Option (List Nat) := b64decodeChars s.data

/-- Decoding an alphabet character recovers its six-bit value. -/
theorem b64CharIdx_b64Char : ∀ i < 64, b64CharIdx (b64Char i) = some i := by decide

/-- Alphabet characters are never the padding character. -/
theorem b64Char_ne_pad : ∀ i < 64, b64Char i ≠ '=' := by decide

/-- Encoding produces the empty character list only on the empty byte list. -/
theorem b64encodeBytes_eq_nil (l : List Nat) (h : b64encodeBytes l = []) : l = [] := by
  match l with
  | [] => rfl
  | [a] => simp [b64encodeBytes] at h
  | [a, b] => simp [b64encodeBytes] at h
  | a :: b :: c :: rest => simp [b64encodeBytes] at h

/-- Base64 decoding inverts encoding on byte lists. -/
theorem b64decodeChars_b64encodeBytes (l : List Nat) (hb : ∀ x ∈ l, x < 256) :
    b64decodeChars (b64encodeBytes l) = some l := by
  induction l using b64encodeBytes.induct with
  | case1 => rfl
  | case2 a =>
    have ha : a < 256 := hb a (by simp)
    have h1 : b64CharIdx (b64Char (a / 4)) = some (a / 4) :=
      b64CharIdx_b64Char _ (by omega)
    have h2 : b64CharIdx (b64Char (a % 4 * 16)) = some (a % 4 * 16) :=
      b64CharIdx_b64Char _ (by omega)
    simp only [b64encodeBytes, b64decodeChars, h1, h2]
    simp
    omega
  | case3 a b =>
    have ha : a < 256 := hb a (by simp)
    have hb2 : b < 256 := hb b (by simp)
    have h1 : b64CharIdx (b64Char (a / 4)) = some (a / 4) :=
      b64CharIdx_b64Char _ (by omega)
    have h2 : b64CharIdx (b64Char (a % 4 * 16 + b / 16)) = some (a % 4 * 16 + b / 16) :=
      b64CharIdx_b64Char _ (by omega)
    have h3 : b64CharIdx (b64Char (b % 16 * 4)) = some (b % 16 * 4) :=
      b64CharIdx_b64Char _ (by omega)
    have hne : b64Char (b % 16 * 4) ≠ '=' := b64Char_ne_pad _ (by omega)
    simp only [b64encodeBytes, b64decodeChars, h1, h2, h3]
    simp [hne]
    omega
  | case4 a b c rest ih =>
    have ha : a < 256 := hb a (by simp)
    have hb2 : b < 256 := hb b (by simp)
    have hc : c < 256 := hb c (by simp)
    have hrest : ∀ x ∈ rest, x < 256 := fun x hx => hb x (by simp [hx])
    have h1 : b64CharIdx (b64Char (a / 4)) = some (a / 4) :=
      b64CharIdx_b64Char _ (by omega)
    have h2 : b64CharIdx (b64Char (a % 4 * 16 + b / 16)) = some (a % 4 * 16 + b / 16) :=
      b64CharIdx_b64Char _ (by omega)
    have h3 : b64CharIdx (b64Char (b % 16 * 4 + c / 64)) = some (b % 16 * 4 + c / 64) :=
      b64CharIdx_b64Char _ (by omega)
    have h4 : b64CharIdx (b64Char (c % 64)) = some (c % 64) :=
      b64CharIdx_b64Char _ (by omega)
    have hne3 : b64Char (b % 16 * 4 + c / 64) ≠ '=' := b64Char_ne_pad _ (by omega)
    have hne4 : b64Char (c % 64) ≠ '=' := b64Char_ne_pad _ (by omega)
    simp only [b64encodeBytes, b64decodeChars, h1, h2, h3, h4]
    simp [hne3, hne4, ih hrest]
    omega

/-- Base64 decoding of an encoded byte string, at the `String` interface. -/
theorem b64decode_b64encode (l : List Nat) (hb : ∀ x ∈ l, x < 256) :
    b64decode (b64encode l) = some l :=
  b64decodeChars_b64encodeBytes l hb

/-- The encoding of a non-empty byte list is a non-empty string. -/
theorem b64encode_ne_empty (l : List Nat) (h : l ≠ []) : b64encode l ≠ "" := by
  intro he
  exact h (b64encodeBytes_eq_nil l (congrArg String.data he))

/-! ## Local-key encryption: CBC chaining and PKCS7 padding -/

/-- Bytewise XOR of two equal-length byte lists (the CBC combining step the
AES-CBC mode of the `cryptography` library performs per block). -/
def xorBytes (a b : List Nat) : List Nat := List.zipWith (fun x y => x ^^^ y) a b

/-- Split a byte list into consecutive 16-byte blocks. -/
def toBlocks (l : List Nat) : List (List Nat) :=
  if h : l = [] then [] else l.take 16 :: toBlocks (l.drop 16)
termination_by l.length
decreasing_by
  have : 0 < l.length := List.length_pos.mpr h
  simp only [List.length_drop]
  omega

/-- CBC encryption over a block list: each plaintext block is XORed with the
previous ciphertext block (initially the IV) before the block cipher `E`. -/
def cbcEncBlocks (E : List Nat → List Nat) (prev : List Nat) :
    List (List Nat) → List (List Nat)
  | [] => []
  | b :: bs =>
    let c := E (xorBytes b prev)
    c :: cbcEncBlocks E c bs

/-- CBC decryption over a block list: each ciphertext block is deciphered by
`D` and XORed with the previous ciphertext block (initially the IV). -/
def cbcDecBlocks (D : List Nat → List Nat) (prev : List Nat) :
    List (List Nat) → List (List Nat)
  | [] => []
  | c :: cs => xorBytes (D c) prev :: cbcDecBlocks D c cs

/-- Embedding of `padding.PKCS7(128).padder()`: append `n` copies of the byte
`n`, where `n = 16 - len % 16` (between 1 and 16). -/
def pkcs7pad (l : List Nat) : List Nat :=
  l ++ List.replicate (16 - l.length % 16) (16 - l.length % 16)

/-- Embedding of `padding.PKCS7(128).unpadder()`: require a non-empty input of
block-aligned length whose last byte `n` is between 1 and 16 and whose last
`n` bytes all equal `n`; strip those bytes. -/
def pkcs7unpad (l : List Nat) : Except String (List Nat) :=
  if l.length = 0 ∨ l.length % 16 ≠ 0 then Except.error "Invalid padding bytes"
  else if l.getLastD 0 = 0 ∨ 16 < l.getLastD 0 ∨ l.length < l.getLastD 0 then
    Except.error "Invalid padding bytes"
  else if (l.drop (l.length - l.getLastD 0)).all (fun x => x == l.getLastD 0) then
    Except.ok (l.take (l.length - l.getLastD 0))
  else Except.error "Invalid padding bytes"

/-- XOR with the same list twice is the identity on equal-length lists. -/
theorem xorBytes_xorBytes (a : List Nat) :
    ∀ b : List Nat, a.length = b.length → xorBytes (xorBytes a b) b = a := by
  induction a with
  | nil => intro b _; rfl
  | cons x xs ih =>
    intro b hlen
    cases b with
    | nil => simp at hlen
    | cons y ys =>
      simp only [xorBytes, List.zipWith_cons_cons, List.cons.injEq]
      constructor
      · rw [Nat.xor_assoc, Nat.xor_self, Nat.xor_zero]
      · exact ih ys (by simpa using hlen)

/-- Length of a bytewise XOR. -/
theorem xorBytes_length (a b : List Nat) :
    (xorBytes a b).length = min a.length b.length :=
  List.length_zipWith _ a b

/-- Bytewise XOR stays below 256 when both inputs do. -/
theorem xorBytes_lt (a : List Nat) :
    ∀ b : List Nat, (∀ x ∈ a, x < 256) → (∀ x ∈ b, x < 256) →
      ∀ x ∈ xorBytes a b, x < 256 := by
  induction a with
  | nil => intro b _ _ x hx; simp [xorBytes] at hx
  | cons y ys ih =>
    intro b ha hb x hx
    cases b with
    | nil => simp [xorBytes] at hx
    | cons z zs =>
      simp only [xorBytes, List.zipWith_cons_cons, List.mem_cons] at hx
      rcases hx with hx | hx
      · subst hx
        have h1 : y < 2 ^ 8 := by simpa using ha y (by simp)
        have h2 : z < 2 ^ 8 := by simpa using hb z (by simp)
        simpa using Nat.xor_lt_two_pow h1 h2
      · exact ih zs (fun u hu => ha u (by simp [hu]))
          (fun u hu => hb u (by simp [hu])) x hx

/-- Rejoining the 16-byte blocks recovers the byte list. -/
theorem toBlocks_flatten (l : List Nat) : (toBlocks l).flatten = l := by
  induction l using toBlocks.induct with
  | case1 => rw [toBlocks, dif_pos rfl, List.flatten_nil]
  | case2 l h ih => rw [toBlocks, dif_neg h, List.flatten_cons, ih, List.take_append_drop]

/-- On block-aligned input every block produced by `toBlocks` has length 16. -/
theorem toBlocks_length_all (l : List Nat) :
    l.length % 16 = 0 → ∀ b ∈ toBlocks l, b.length = 16 := by
  induction l using toBlocks.induct with
  | case1 => intro _ b hb; rw [toBlocks, dif_pos rfl] at hb; cases hb
  | case2 l h ih =>
    intro hmod b hb
    have hpos : 0 < l.length := List.length_pos.mpr h
    have h16 : 16 ≤ l.length := by omega
    rw [toBlocks, dif_neg h] at hb
    rcases List.mem_cons.mp hb with hb | hb
    · subst hb
      simp only [List.length_take]
      omega
    · exact ih (by simp only [List.length_drop]; omega) b hb

/-- Every byte of a block produced by `toBlocks` is a byte of the input. -/
theorem toBlocks_mem_subset (l : List Nat) :
    ∀ b ∈ toBlocks l, ∀ x ∈ b, x ∈ l := by
  induction l using toBlocks.induct with
  | case1 => intro b hb; rw [toBlocks, dif_pos rfl] at hb; cases hb
  | case2 l h ih =>
    intro b hb x hx
    rw [toBlocks, dif_neg h] at hb
    rcases List.mem_cons.mp hb with hb | hb
    · exact List.take_subset 16 l (hb ▸ hx)
    · exact List.drop_subset 16 l (ih b hb x hx)

/-- `toBlocks` inverts `join` on lists of 16-byte blocks. -/
theorem toBlocks_of_blocks :
    ∀ bs : List (List Nat), (∀ b ∈ bs, b.length = 16) → toBlocks bs.flatten = bs := by
  intro bs
  induction bs with
  | nil => intro _; rw [List.flatten_nil, toBlocks, dif_pos rfl]
  | cons b bs ih =>
    intro hlen
    have hb : b.length = 16 := hlen b (List.mem_cons_self b bs)
    have hbne : b ++ bs.flatten ≠ [] := by
      intro hcontra
      have := congrArg List.length hcontra
      simp [hb] at this
    rw [List.flatten_cons, toBlocks, dif_neg hbne, List.take_left' hb, List.drop_left' hb,
      ih (fun u hu => hlen u (List.mem_cons_of_mem b hu))]

/-- The padded length is a multiple of the block size. -/
theorem pkcs7pad_length_mod (l : List Nat) : (pkcs7pad l).length % 16 = 0 := by
  simp only [pkcs7pad, List.length_append, List.length_replicate]
  omega

/-- Padding always appends at least one byte. -/
theorem pkcs7pad_ne_nil (l : List Nat) : pkcs7pad l ≠ [] := by
  intro h
  have := congrArg List.length h
  simp only [pkcs7pad, List.length_append, List.length_replicate, List.length_nil] at this
  omega

/-- Padded bytes stay below 256 when the input's bytes do. -/
theorem pkcs7pad_lt (l : List Nat) (h : ∀ x ∈ l, x < 256) :
    ∀ x ∈ pkcs7pad l, x < 256 := by
  intro x hx
  rcases List.mem_append.mp hx with hx | hx
  · exact h x hx
  · rw [List.eq_of_mem_replicate hx]
    omega

/-- Unpadding inverts padding. -/
theorem pkcs7unpad_pkcs7pad (l : List Nat) : pkcs7unpad (pkcs7pad l) = Except.ok l := by
  have hmod : l.length % 16 < 16 := Nat.mod_lt _ (by omega)
  have hlen : (pkcs7pad l).length = l.length + (16 - l.length % 16) := by
    simp [pkcs7pad]
  have hlast : (pkcs7pad l).getLastD 0 = 16 - l.length % 16 := by
    unfold pkcs7pad
    rw [show 16 - l.length % 16 = (16 - l.length % 16 - 1) + 1 from by omega,
      List.replicate_succ', ← List.append_assoc, List.getLastD_concat]
  have hpadlt : ∀ x ∈ List.replicate (16 - l.length % 16) (16 - l.length % 16),
      (x == 16 - l.length % 16) = true := by
    intro x hx
    rw [List.eq_of_mem_replicate hx]
    simp
  unfold pkcs7unpad
  rw [if_neg (by
    push_neg
    refine ⟨by rw [hlen]; omega, pkcs7pad_length_mod l⟩)]
  rw [if_neg (by
    push_neg
    rw [hlast, hlen]
    omega)]
  rw [if_pos (by
    rw [hlast, hlen, show l.length + (16 - l.length % 16) - (16 - l.length % 16) =
      l.length from by omega]
    unfold pkcs7pad
    rw [List.drop_left' rfl]
    exact List.all_eq_true.mpr hpadlt)]
  rw [hlast, hlen, show l.length + (16 - l.length % 16) - (16 - l.length % 16) =
    l.length from by omega]
  unfold pkcs7pad
  rw [List.take_left' rfl]

/-- CBC ciphertext blocks are 16 bytes of values below 256, provided the block
cipher `E` maps such blocks to such blocks. -/
theorem cbcEncBlocks_spec (E : List Nat → List Nat)
    (hE : ∀ b, b.length = 16 → (∀ x ∈ b, x < 256) →
      (E b).length = 16 ∧ ∀ x ∈ E b, x < 256) :
    ∀ (bs : List (List Nat)) (prev : List Nat),
      (∀ b ∈ bs, b.length = 16 ∧ ∀ x ∈ b, x < 256) →
      prev.length = 16 → (∀ x ∈ prev, x < 256) →
      ∀ c ∈ cbcEncBlocks E prev bs, c.length = 16 ∧ ∀ x ∈ c, x < 256 := by
  intro bs
  induction bs with
  | nil => intro prev _ _ _ c hc; cases hc
  | cons b bs ih =>
    intro prev hbs hp hpb c hc
    obtain ⟨hblen, hblt⟩ := hbs b (List.mem_cons_self b bs)
    have hxlen : (xorBytes b prev).length = 16 := by
      rw [xorBytes_length]
      omega
    have hxlt : ∀ x ∈ xorBytes b prev, x < 256 := xorBytes_lt b prev hblt hpb
    obtain ⟨hclen, hclt⟩ := hE _ hxlen hxlt
    simp only [cbcEncBlocks] at hc
    rcases List.mem_cons.mp hc with hc | hc
    · exact hc ▸ ⟨hclen, hclt⟩
    · exact ih (E (xorBytes b prev))
        (fun u hu => hbs u (List.mem_cons_of_mem b hu)) hclen hclt c hc

/-- CBC decryption with the inverse block cipher undoes CBC encryption. -/
theorem cbcDecBlocks_cbcEncBlocks (E D : List Nat → List Nat)
    (hE : ∀ b, b.length = 16 → (∀ x ∈ b, x < 256) →
      (E b).length = 16 ∧ ∀ x ∈ E b, x < 256)
    (hD : ∀ b, b.length = 16 → (∀ x ∈ b, x < 256) → D (E b) = b) :
    ∀ (bs : List (List Nat)) (prev : List Nat),
      (∀ b ∈ bs, b.length = 16 ∧ ∀ x ∈ b, x < 256) →
      prev.length = 16 → (∀ x ∈ prev, x < 256) →
      cbcDecBlocks D prev (cbcEncBlocks E prev bs) = bs := by
  intro bs
  induction bs with
  | nil => intro prev _ _ _; rfl
  | cons b bs ih =>
    intro prev hbs hp hpb
    obtain ⟨hblen, hblt⟩ := hbs b (List.mem_cons_self b bs)
    have hxlen : (xorBytes b prev).length = 16 := by
      rw [xorBytes_length]
      omega
    have hxlt : ∀ x ∈ xorBytes b prev, x < 256 := xorBytes_lt b prev hblt hpb
    obtain ⟨hclen, hclt⟩ := hE _ hxlen hxlt
    simp only [cbcEncBlocks, cbcDecBlocks, List.cons.injEq]
    constructor
    · rw [hD _ hxlen hxlt]
      exact xorBytes_xorBytes b prev (by omega)
    · exact ih (E (xorBytes b prev))
        (fun u hu => hbs u (List.mem_cons_of_mem b hu)) hclen hclt

/-! ## Local-key encryption: `DataEncryptor.encrypt` / `DataEncryptor.decrypt` -/

/-- Embedding of `DataEncryptor.encrypt`. The AES-256 block encryption under
the instance's 32-byte key is the opaque parameter `E`; the fresh random
16-byte IV drawn by `secrets.token_bytes(16)` is the parameter `iv`; the
UTF-8 bytes of the plaintext string are `plaintext`. The plaintext is PKCS7
padded, CBC-encrypted, prefixed with the IV and base64-encoded. -/
def DataEncryptor.encrypt (E : List Nat → List Nat) (iv plaintext : List Nat) :
    Except String String :=
  if plaintext = [] then Except.error "Plaintext cannot be empty"
  else
    Except.ok (b64encode (iv ++ (cbcEncBlocks E iv (toBlocks (pkcs7pad plaintext))).flatten))

/-- Embedding of `DataEncryptor.decrypt`. The AES-256 block decryption under
the instance's key is the opaque parameter `D`. The blob is base64-decoded,
rejected when shorter than 16 bytes, split into IV and ciphertext,
CBC-decrypted and unpadded; any failure surfaces as a `ValueError`-style
error (the returned bytes are the UTF-8 encoding of the plaintext string). -/
def DataEncryptor.decrypt (D : List Nat → List Nat) (encrypted_data : String) :
    Except String (List Nat) :=
  if encrypted_data = "" then Except.error "Encrypted data cannot be empty"
  else
    match b64decode encrypted_data with
    | Option.none => Except.error "Decryption failed"
    | some data =>
      if data.length < 16 then Except.error "Decryption failed: Invalid encrypted data: too short"
      else
        match pkcs7unpad ((cbcDecBlocks D (data.take 16) (toBlocks (data.drop 16))).flatten) with
        | Except.ok pt => Except.ok pt
        | Except.error e => Except.error ("Decryption failed: " ++ e)

/-- C8: for the local-key backend, decryption inverts encryption: for every
non-empty plaintext byte string and every 16-byte IV, provided the block
cipher pair satisfies the AES contract (16-byte blocks to 16-byte blocks,
`D ∘ E = id`), decrypting the encrypted blob returns the original plaintext.
The blob is the base64 encoding of the IV prefixed to the CBC ciphertext, and
decryption splits the IV from the first 16 bytes, deciphers and unpads. -/
theorem dataEncryptor_roundtrip (E D : List Nat → List Nat)
    (hE : ∀ b, b.length = 16 → (∀ x ∈ b, x < 256) →
      (E b).length = 16 ∧ ∀ x ∈ E b, x < 256)
    (hD : ∀ b, b.length = 16 → (∀ x ∈ b, x < 256) → D (E b) = b)
    (plaintext iv : List Nat) (hp : plaintext ≠ [])
    (hpb : ∀ x ∈ plaintext, x < 256)
    (hiv : iv.length = 16) (hivb : ∀ x ∈ iv, x < 256) :
    (DataEncryptor.encrypt E iv plaintext).bind (DataEncryptor.decrypt D) =
      Except.ok plaintext := by
  have hblocks : ∀ b ∈ toBlocks (pkcs7pad plaintext), b.length = 16 ∧ ∀ x ∈ b, x < 256 :=
    fun b hb => ⟨toBlocks_length_all _ (pkcs7pad_length_mod plaintext) b hb,
      fun x hx => pkcs7pad_lt plaintext hpb x (toBlocks_mem_subset _ b hb x hx)⟩
  have hct : ∀ c ∈ cbcEncBlocks E iv (toBlocks (pkcs7pad plaintext)),
      c.length = 16 ∧ ∀ x ∈ c, x < 256 :=
    cbcEncBlocks_spec E hE _ iv hblocks hiv hivb
  have hctflat : ∀ x ∈ (cbcEncBlocks E iv (toBlocks (pkcs7pad plaintext))).flatten, x < 256 := by
    intro x hx
    rcases List.mem_flatten.mp hx with ⟨c, hc, hxc⟩
    exact (hct c hc).2 x hxc
  have hallb : ∀ x ∈ iv ++ (cbcEncBlocks E iv (toBlocks (pkcs7pad plaintext))).flatten,
      x < 256 := by
    intro x hx
    rcases List.mem_append.mp hx with hx | hx
    · exact hivb x hx
    · exact hctflat x hx
  have hne : iv ++ (cbcEncBlocks E iv (toBlocks (pkcs7pad plaintext))).flatten ≠ [] := by
    intro hcontra
    have := congrArg List.length hcontra
    simp [hiv] at this
  unfold DataEncryptor.encrypt
  rw [if_neg hp]
  show DataEncryptor.decrypt D (b64encode _) = Except.ok plaintext
  unfold DataEncryptor.decrypt
  rw [if_neg (b64encode_ne_empty _ hne), b64decode_b64encode _ hallb]
  dsimp only
  have hlen : (iv ++ (cbcEncBlocks E iv (toBlocks (pkcs7pad plaintext))).flatten).length =
      16 + (cbcEncBlocks E iv (toBlocks (pkcs7pad plaintext))).flatten.length := by
    simp [hiv]
  rw [if_neg (by omega)]
  rw [List.take_left' hiv, List.drop_left' hiv,
    toBlocks_of_blocks _ (fun c hc => (hct c hc).1),
    cbcDecBlocks_cbcEncBlocks E D hE hD _ iv hblocks hiv hivb,
    toBlocks_flatten, pkcs7unpad_pkcs7pad]

/-- Witness for C8 with the identity block cipher, a zero IV and the two-byte
plaintext `[104, 105]`. -/
theorem dataEncryptor_roundtrip_witness :
    (DataEncryptor.encrypt id (List.replicate 16 0) [104, 105]).bind
        (DataEncryptor.decrypt id) = Except.ok [104, 105] :=
  dataEncryptor_roundtrip id id
    (fun b hb hx => ⟨hb, hx⟩) (fun b _ _ => rfl)
    [104, 105] (List.replicate 16 0) (by decide) (by decide) (by decide) (by decide)
